import Mathlib

/-!
Verification of the analysis engine of the `da_engine` repository
(`da_engine/da_engine.py`, class `Analysis`).

The embedding is shallow: dense real matrices become `Matrix (Fin r) (Fin c) F`
over a linear ordered field `F` (instantiated at `ℚ` for concrete evaluations),
and the external LAPACK/BLAS providers (`dgesvd`, `dgemm`, `dgemv`,
`ortho_group.rvs`) are modelled by passing their outputs as explicit arguments,
exactly as the source consumes them.  Stateful Python control flow in
`Analysis.__init__` is embedded at shape level as a function into
`Except PyError`; an expression statement of the source that constructs an
exception object without `raise` is a no-op and is recorded as a comment at
the corresponding place.
-/

namespace DaEngine

open Matrix

variable {F : Type*} [LinearOrderedField F]

/-! ## Truncation policy (da_engine.py lines 150-166 and 200-216)

Both `Analysis.EnKF` and `Analysis.Sqrt_KF` square the singular values
returned by `dgesvd`, and keep, when `self.truncation is None`, the entries
whose share of the total energy is at least `truncation_percent / 100`,
otherwise the entries at least the explicit threshold `self.truncation`.
The retained list is `s_`, `p = len(s_)`, and `u[:, 0:p]` keeps the first
`p` columns of `u`. -/

/-- `sums_ = np.sum(np.power(s, 2.0))`: total energy of a singular value list. -/
def totalEnergy (s : List F) : F :=
  (s.map fun x => x ^ 2).sum

/-- The list of retained squared singular values, translated from
da_engine.py lines 150-158 (EnKF) / 200-208 (Sqrt_KF):
`s_ = np.power(s, 2.0)`; if `self.truncation is None` then
`s_ = s_[s_ / np.sum(s_) >= self.truncation_percent / 100.0]`
else `s_ = s_[s_ >= self.truncation]`. -/
def keptSq (truncation : Option F) (truncation_percent : F) (s : List F) :
    List F :=
  let s2 := s.map fun x => x ^ 2
  match truncation with
  | none => s2.filter fun x => decide (truncation_percent / 100 ≤ x / s2.sum)
  | some t => s2.filter fun x => decide (t ≤ x)

lemma keptSq_none (tp : F) (s : List F) :
    keptSq none tp s =
      (s.map fun x => x ^ 2).filter
        fun x => decide (tp / 100 ≤ x / totalEnergy s) := rfl

lemma keptSq_some (t tp : F) (s : List F) :
    keptSq (some t) tp s =
      (s.map fun x => x ^ 2).filter fun x => decide (t ≤ x) := rfl

/-- C4: in both algorithms, with no explicit truncation a singular value is
retained exactly when the share of its squared value in the total energy
`sum(S^2)` is at least `truncation_percent / 100` — equivalently (total energy
positive) when its squared value is at least `truncation_percent / 100` times
the total energy; with an explicit non-negative threshold it is retained
exactly when its squared value is at least that threshold.  Stated for an
arbitrary candidate squared value `x`; `p` is the length of the retained list
by definition of `keptSq`. -/
theorem truncation_retention_criterion (s : List F) (tp t x : F)
    (hsum : 0 < totalEnergy s) :
    (x ∈ keptSq none tp s ↔
      x ∈ (s.map fun y => y ^ 2) ∧ tp / 100 * totalEnergy s ≤ x) ∧
    (x ∈ keptSq (some t) tp s ↔
      x ∈ (s.map fun y => y ^ 2) ∧ t ≤ x) := by
  constructor
  · rw [keptSq_none, List.mem_filter]
    refine and_congr_right fun _ => ?_
    rw [decide_eq_true_eq, div_le_div_iff₀ (by norm_num : (0 : F) < 100) hsum]
    constructor <;> intro h <;> linarith
  · rw [keptSq_some, List.mem_filter]
    exact and_congr_right fun _ => by rw [decide_eq_true_eq]

/-- Concrete instantiation of `truncation_retention_criterion`:
singular values `[3, 4]`, total energy `25`, candidate squared value `9`,
`truncation_percent = 4` (threshold share `1/25`), explicit threshold `10`. -/
theorem truncation_retention_criterion_witness :
    0 < totalEnergy [(3 : ℚ), 4] ∧
    (((9 : ℚ) ∈ keptSq none 4 [(3 : ℚ), 4] ↔
        (9 : ℚ) ∈ ([(3 : ℚ), 4].map fun y => y ^ 2) ∧
          (4 : ℚ) / 100 * totalEnergy [(3 : ℚ), 4] ≤ 9) ∧
      ((9 : ℚ) ∈ keptSq (some 10) 4 [(3 : ℚ), 4] ↔
        (9 : ℚ) ∈ ([(3 : ℚ), 4].map fun y => y ^ 2) ∧ (10 : ℚ) ≤ 9)) :=
  ⟨by norm_num [totalEnergy],
   truncation_retention_criterion [(3 : ℚ), 4] 4 10 9 (by norm_num [totalEnergy])⟩

/-- C9, counterexample to the claim as stated: the singular value list `[1]`
has a non-zero singular value, yet with the explicit threshold `2` the number
`p` of retained values is `0`, not at least `1`. -/
theorem p_zero_with_nonzero_singular_value_cx :
    (1 : ℚ) ≠ 0 ∧ ¬ (1 ≤ (keptSq (some (2 : ℚ)) (1 / 100) [1]).length) := by
  constructor
  · norm_num
  · simp [keptSq]

/-- C9 (amended): for a fixed singular value list, increasing the explicit
truncation threshold never increases `p`, and increasing `truncation_percent`
never increases `p`; `p` is at least 1 whenever at least one singular value
actually satisfies the retention criterion (a non-zero singular value alone
does not suffice: an explicit threshold exceeding every squared singular
value yields `p = 0`). -/
theorem truncation_monotone_and_p_pos (s : List F) (t₁ t₂ tp₁ tp₂ : F)
    (ht : t₁ ≤ t₂) (htp : tp₁ ≤ tp₂)
    (hx : ∃ x ∈ s, t₁ ≤ x ^ 2)
    (hy : ∃ x ∈ s, tp₁ / 100 ≤ x ^ 2 / totalEnergy s) :
    ((keptSq (some t₂) tp₁ s).length ≤ (keptSq (some t₁) tp₁ s).length ∧
      (keptSq none tp₂ s).length ≤ (keptSq none tp₁ s).length) ∧
    (1 ≤ (keptSq (some t₁) tp₁ s).length ∧
      1 ≤ (keptSq none tp₁ s).length) := by
  refine ⟨⟨?_, ?_⟩, ?_, ?_⟩
  · exact List.Sublist.length_le <|
      List.monotone_filter_right _ fun a ha => by
        rw [decide_eq_true_eq] at ha ⊢; exact le_trans ht ha
  · exact List.Sublist.length_le <|
      List.monotone_filter_right _ fun a ha => by
        rw [decide_eq_true_eq] at ha ⊢
        exact le_trans (by gcongr) ha
  · obtain ⟨x, hxs, hxt⟩ := hx
    have hmem : x ^ 2 ∈ keptSq (some t₁) tp₁ s := by
      rw [keptSq_some, List.mem_filter, decide_eq_true_eq]
      exact ⟨List.mem_map_of_mem _ hxs, hxt⟩
    exact List.length_pos.mpr (List.ne_nil_of_mem hmem)
  · obtain ⟨x, hxs, hxt⟩ := hy
    have hmem : x ^ 2 ∈ keptSq none tp₁ s := by
      rw [keptSq_none, List.mem_filter, decide_eq_true_eq]
      exact ⟨List.mem_map_of_mem _ hxs, hxt⟩
    exact List.length_pos.mpr (List.ne_nil_of_mem hmem)

/-- Concrete instantiation of `truncation_monotone_and_p_pos`:
singular values `[2, 1]` (energies `[4, 1]`, total `5`), explicit thresholds
`1 ≤ 5`, percentage thresholds `1 ≤ 50`. -/
theorem truncation_monotone_and_p_pos_witness :
    ((keptSq (some (5 : ℚ)) 1 [2, 1]).length ≤
        (keptSq (some (1 : ℚ)) 1 [2, 1]).length ∧
      (keptSq none (50 : ℚ) [2, 1]).length ≤
        (keptSq none (1 : ℚ) [2, 1]).length) ∧
    (1 ≤ (keptSq (some (1 : ℚ)) 1 [2, 1]).length ∧
      1 ≤ (keptSq none (1 : ℚ) [2, 1]).length) :=
  truncation_monotone_and_p_pos [2, 1] 1 5 1 50 (by norm_num) (by norm_num)
    ⟨2, by norm_num⟩ ⟨2, by norm_num [totalEnergy]⟩

/-! ## Matrix-level embedding of the two update algorithms

The source delegates decompositions and products to LAPACK/BLAS
(`lap.dgesvd`, `blas.dgemm`, `blas.dgemv`) and draws the rotation with
`scipy.stats.ortho_group.rvs`.  In the embedding the outputs of `dgesvd`
(left singular vectors `u`, singular values `s`) and the drawn rotation are
passed in as arguments; the `ierr` check after each `dgesvd` call constructs
a `ValueError` without raising it, so it has no effect. -/

/-- `np.mean(M, axis=1)[:, np.newaxis]` broadcast back over the ensemble
columns: every column holds the row-wise mean. -/
def rowMeanC (M : Matrix (Fin r) (Fin c) F) : Matrix (Fin r) (Fin c) F :=
  Matrix.of fun i _ => (∑ j, M i j) / (c : F)

/-- `u[:, 0:p]`: the first `p` columns of `u` (columns past `m` read as `0`;
in the source `p` never exceeds `m` because `dgesvd` returns at most
`min(m, N)` singular values). -/
def firstCols (u : Matrix (Fin m) (Fin m) F) (p : ℕ) :
    Matrix (Fin m) (Fin p) F :=
  Matrix.of fun i j => if h : (j : ℕ) < m then u i ⟨j, h⟩ else 0

/-- `s_ = 1.0 / s_` followed by `s_[:, np.newaxis] * (...)`: the diagonal
matrix of reciprocals of a retained list. -/
def invDiag (l : List F) : Matrix (Fin l.length) (Fin l.length) F :=
  Matrix.diagonal fun i => 1 / l.get i

set_option linter.unusedVariables false in
/-- Shallow embedding of `Analysis.EnKF` (da_engine.py lines 127-175),
step for step: anomalies `H_dash`, `K_dash`, innovation factor `HE`
(argument of the external `dgesvd`, whose outputs `u`, `s` are passed in),
ensemble innovation `D_dash = D - H`, truncated reciprocal spectrum, and the
chained products `x1 = diag(1/s_) @ u_p.T`, `x2 = x1 @ D_dash`,
`x3 = u_p @ x2`, `x4 = H_dash.T @ x3`, returning `K + K_dash @ x4`. -/
def EnKF (K : Matrix (Fin n) (Fin N) F) (H D E : Matrix (Fin m) (Fin N) F)
    (truncation : Option F) (truncation_percent : F)
    (u : Matrix (Fin m) (Fin m) F) (s : List F) :
    Matrix (Fin n) (Fin N) F :=
  let inflation_factor : F := 1
  let H_dash := H - rowMeanC H
  let HE := H_dash + inflation_factor • E
  let K_dash := K - rowMeanC K
  let D_dash := D - H
  let s2 := keptSq truncation truncation_percent s
  let up := firstCols u s2.length
  let x1 := invDiag s2 * upᵀ
  let x2 := x1 * D_dash
  let x3 := up * x2
  let x4 := H_dashᵀ * x3
  K + K_dash * x4

/-- C3: for every resolved problem and truncation spec, with `u`, `s` the
outputs of the external SVD of `HE = H_dash + 1.0 * E`, `EnKF` returns exactly
`K + K_dash * H_dashᵀ * Uᵖ * diag(1/S_kept) * Uᵖᵀ * (D - H)`, where `S_kept`
is the retained list of squared singular values and `Uᵖ` the first `p`
columns of `u`. -/
theorem enkf_posterior_formula (K : Matrix (Fin n) (Fin N) F)
    (H D E : Matrix (Fin m) (Fin N) F) (tr : Option F) (tp : F)
    (u : Matrix (Fin m) (Fin m) F) (s : List F) :
    EnKF K H D E tr tp u s =
      K + (K - rowMeanC K) * (H - rowMeanC H)ᵀ *
        firstCols u (keptSq tr tp s).length * invDiag (keptSq tr tp s) *
        (firstCols u (keptSq tr tp s).length)ᵀ * (D - H) := by
  simp only [EnKF, Matrix.mul_assoc]

/-! ## The rotation step of `Analysis.Sqrt_KF` (da_engine.py lines 243-251) -/

/-- Row sums of a matrix (the quantity the spec calls the mean-preservation
invariant of the rotation, up to the factor `1/N`). -/
def rowSums (M : Matrix (Fin r) (Fin c) F) : Fin r → F :=
  fun i => ∑ j, M i j

/-- Row sums are unchanged by right multiplication with a matrix all of whose
rows sum to one. -/
lemma rowSums_mul_right (M : Matrix (Fin r) (Fin c) F)
    (Q : Matrix (Fin c) (Fin c) F) (h : ∀ k, ∑ j, Q k j = 1) :
    rowSums (M * Q) = rowSums M := by
  funext i
  simp only [rowSums, Matrix.mul_apply]
  rw [Finset.sum_comm]
  simp only [← Finset.mul_sum, h, mul_one]

/-- C5, counterexample to the claim as stated: for the orthogonal matrix
`Θ = [[0, -1], [1, 0]]` and `T = I`, the row sums of `T * Θᵀ` differ from the
row sums of `T`; an arbitrary orthogonal rotation is not mean-preserving. -/
theorem rotation_row_sums_not_preserved_cx :
    (!![(0 : ℚ), -1; 1, 0]) * (!![(0 : ℚ), -1; 1, 0])ᵀ = 1 ∧
    rowSums ((1 : Matrix (Fin 2) (Fin 2) ℚ) * (!![(0 : ℚ), -1; 1, 0])ᵀ) ≠
      rowSums (1 : Matrix (Fin 2) (Fin 2) ℚ) := by
  constructor
  · ext i j
    fin_cases i <;> fin_cases j <;>
      simp [Matrix.mul_apply, Fin.sum_univ_two, Matrix.one_apply,
        Matrix.transpose_apply, Matrix.vecHead, Matrix.vecTail]
  · intro hcontra
    have h0 := congrFun hcontra 1
    simp [rowSums, Fin.sum_univ_two, Matrix.mul_apply, Matrix.one_apply,
      Matrix.transpose_apply, Matrix.vecHead, Matrix.vecTail] at h0
    exact absurd h0 (by norm_num)

set_option linter.unusedVariables false in
/-- C5 (amended): the rotation applied in `Sqrt_KF` is mean-preserving for an
orthogonal `Θ` whose transpose fixes the all-ones vector (every row of `Θᵀ`
sums to one, that is every column of `Θ` sums to one): then the row sums of
`T * Θᵀ` equal those of `T`, and consequently the row sums (hence the mean
over ensemble columns) of the posterior perturbations `K_dash * T * Θᵀ`
equal those of `K_dash * T`.  For a general orthogonal `Θ`, as drawn by
`ortho_group.rvs`, the property fails. -/
theorem rotation_row_sums_preserved_of_fixes_ones
    (T : Matrix (Fin N) (Fin N) F) (Kd : Matrix (Fin n) (Fin N) F)
    (Th : Matrix (Fin N) (Fin N) F) (hor : Th * Thᵀ = 1)
    (hones : ∀ k, ∑ j, Thᵀ k j = 1) :
    rowSums (T * Thᵀ) = rowSums T ∧
    rowSums (Kd * T * Thᵀ) = rowSums (Kd * T) :=
  ⟨rowSums_mul_right T Thᵀ hones, rowSums_mul_right (Kd * T) Thᵀ hones⟩

/-- Concrete instantiation of `rotation_row_sums_preserved_of_fixes_ones` at
the orthogonal permutation `Θ = [[0, 1], [1, 0]]` (which fixes the ones
vector), `T = [[1, 2], [3, 4]]`, `K_dash = [[1, 0]]`. -/
theorem rotation_row_sums_preserved_witness :
    rowSums ((!![(1 : ℚ), 2; 3, 4]) * (!![(0 : ℚ), 1; 1, 0])ᵀ) =
        rowSums (!![(1 : ℚ), 2; 3, 4]) ∧
    rowSums ((!![(1 : ℚ), 0]) * (!![(1 : ℚ), 2; 3, 4]) *
        (!![(0 : ℚ), 1; 1, 0])ᵀ) =
      rowSums ((!![(1 : ℚ), 0]) * (!![(1 : ℚ), 2; 3, 4])) :=
  rotation_row_sums_preserved_of_fixes_ones (!![(1 : ℚ), 2; 3, 4])
    (!![(1 : ℚ), 0]) (!![(0 : ℚ), 1; 1, 0])
    (by ext i j; fin_cases i <;> fin_cases j <;>
      simp [Matrix.mul_apply, Fin.sum_univ_two, Matrix.one_apply,
        Matrix.transpose_apply, Matrix.vecHead, Matrix.vecTail])
    (by intro k; fin_cases k <;>
      simp [Fin.sum_univ_two, Matrix.transpose_apply, Matrix.vecHead,
        Matrix.vecTail])

/-! ## Posterior assembly of `Analysis.Sqrt_KF` and its covariance -/

/-- Final assembly of the `Sqrt_KF` posterior (da_engine.py lines 246-249):
`x2 = K_dash @ Tm`; `x2 = x2 @ theta.T`; `Aa = Ka[:, np.newaxis] + x2`, where
`Ka` is the analyzed mean, `Tm` the ensemble transform built from the second
SVD, and `theta` the rotation drawn by `ortho_group.rvs(N)`. -/
def srkfPost (Ka : Fin n → F) (K_dash : Matrix (Fin n) (Fin N) F)
    (Tm Th : Matrix (Fin N) (Fin N) F) : Matrix (Fin n) (Fin N) F :=
  Matrix.of (fun i _ => Ka i) + K_dash * Tm * Thᵀ

/-- Sample covariance of an ensemble, centered at the empirical ensemble mean,
with the conventional `1/(N-1)` normalization (the statistical functional the
spec refers to; the source itself never computes it). -/
def sampleCov (X : Matrix (Fin n) (Fin N) F) : Matrix (Fin n) (Fin n) F :=
  ((N : F) - 1)⁻¹ • ((X - rowMeanC X) * (X - rowMeanC X)ᵀ)

/-- Second moment of an ensemble about a prescribed center vector, with the
same `1/(N-1)` normalization. -/
def momentAbout (Ka : Fin n → F) (X : Matrix (Fin n) (Fin N) F) :
    Matrix (Fin n) (Fin n) F :=
  ((N : F) - 1)⁻¹ •
    ((X - Matrix.of fun i _ => Ka i) * (X - Matrix.of fun i _ => Ka i)ᵀ)

/-- C6, counterexample to the claim as stated: with `n = 1`, `N = 2`,
analyzed mean `0`, `K_dash = [[1, 0]]`, transform `Tm = I`, the two orthogonal
rotations `Θ₁ = I` and `Θ₂ = [[3/5, 4/5], [-4/5, 3/5]]` give posterior
ensembles with different (empirically centered) sample covariances:
`[[1/2]]` versus `[[49/50]]`.  The rotation moves the ensemble mean, so the
centered sample covariance is not invariant. -/
theorem sample_cov_differs_cx :
    ((1 : Matrix (Fin 2) (Fin 2) ℚ) * (1 : Matrix (Fin 2) (Fin 2) ℚ)ᵀ = 1) ∧
    ((!![(3 : ℚ)/5, 4/5; -(4/5), 3/5]) *
        (!![(3 : ℚ)/5, 4/5; -(4/5), 3/5])ᵀ = 1) ∧
    sampleCov (srkfPost (fun _ => (0 : ℚ)) (!![(1 : ℚ), 0]) 1 1) ≠
      sampleCov (srkfPost (fun _ => (0 : ℚ)) (!![(1 : ℚ), 0]) 1
        (!![(3 : ℚ)/5, 4/5; -(4/5), 3/5])) := by
  refine ⟨by simp, ?_, ?_⟩
  · ext i j
    fin_cases i <;> fin_cases j <;>
      norm_num [Matrix.mul_apply, Fin.sum_univ_two, Matrix.one_apply,
        Matrix.transpose_apply, Matrix.vecHead, Matrix.vecTail]
  · intro h
    have h0 := congrFun (congrFun h 0) 0
    simp [sampleCov, srkfPost, rowMeanC, Matrix.mul_apply, Fin.sum_univ_two,
      Matrix.one_apply, Matrix.transpose_apply, Matrix.vecHead, Matrix.vecTail,
      Matrix.smul_apply, Matrix.sub_apply, Matrix.add_apply, Matrix.of_apply,
      Matrix.vecMul, dotProduct, Fin.sum_univ_succ] at h0
    norm_num at h0

/-- C6 (amended): for one fixed resolved input (analyzed mean `Ka`, anomalies
`K_dash`, transform `Tm`) and any two orthogonal rotations, the posterior
ensembles returned by `Sqrt_KF` have exactly equal second moment about the
analyzed mean `Ka` (equivalently, equal perturbation covariance about zero) —
both equal `(N-1)⁻¹ (K_dash Tm)(K_dash Tm)ᵀ`.  The sample covariance centered
at the empirical ensemble mean is not invariant, because a general orthogonal
rotation moves the ensemble mean. -/
theorem rotation_second_moment_invariant (Ka : Fin n → F)
    (Kd : Matrix (Fin n) (Fin N) F) (Tm Th₁ Th₂ : Matrix (Fin N) (Fin N) F)
    (h₁ : Th₁ * Th₁ᵀ = 1) (h₂ : Th₂ * Th₂ᵀ = 1) :
    momentAbout Ka (srkfPost Ka Kd Tm Th₁) =
      momentAbout Ka (srkfPost Ka Kd Tm Th₂) := by
  have key : ∀ Th : Matrix (Fin N) (Fin N) F, Th * Thᵀ = 1 →
      momentAbout Ka (srkfPost Ka Kd Tm Th) =
        ((N : F) - 1)⁻¹ • ((Kd * Tm) * (Kd * Tm)ᵀ) := by
    intro Th h
    have h' : Thᵀ * Th = 1 := Matrix.mul_eq_one_comm.mp h
    unfold momentAbout srkfPost
    rw [add_sub_cancel_left, Matrix.transpose_mul, Matrix.mul_assoc,
      ← Matrix.mul_assoc Thᵀ, Matrix.transpose_transpose, h', Matrix.one_mul]
  rw [key Th₁ h₁, key Th₂ h₂]

/-- Concrete instantiation of `rotation_second_moment_invariant` at `n = 1`,
`N = 2`, `Ka = 0`, `K_dash = [[1, 0]]`, `Tm = I`, `Θ₁ = I`,
`Θ₂ = [[0, 1], [1, 0]]`. -/
theorem rotation_second_moment_invariant_witness :
    momentAbout (fun _ => (0 : ℚ)) (srkfPost (fun _ => (0 : ℚ))
        (!![(1 : ℚ), 0]) 1 1) =
      momentAbout (fun _ => (0 : ℚ)) (srkfPost (fun _ => (0 : ℚ))
        (!![(1 : ℚ), 0]) 1 (!![(0 : ℚ), 1; 1, 0])) :=
  rotation_second_moment_invariant (fun _ => (0 : ℚ)) (!![(1 : ℚ), 0]) 1 1
    (!![(0 : ℚ), 1; 1, 0]) (by simp)
    (by ext i j; fin_cases i <;> fin_cases j <;>
      simp [Matrix.mul_apply, Fin.sum_univ_two, Matrix.one_apply,
        Matrix.transpose_apply, Matrix.vecHead, Matrix.vecTail])

/-! ## The matrix decomposed in step 6 of `Analysis.Sqrt_KF`
(da_engine.py lines 225-234) -/

/-- `C^{-1}` as assembled in `Analysis.Sqrt_KF` (lines 226-228):
`sig = np.power(sig[0:p], -2.0)`; `x2 = sig[:, np.newaxis] * u_.T`;
`c_1 = blas.dgemm(alpha=1, a=u_, b=x2)`, that is
`u_p @ diag(sig_kept^-2) @ u_p.T`, with the reciprocal squared retained
singular values passed in as `sigInv2`. -/
def srkfCinv (up : Matrix (Fin m) (Fin p) F) (sigInv2 : Fin p → F) :
    Matrix (Fin m) (Fin m) F :=
  up * (Matrix.diagonal sigInv2 * upᵀ)

/-- The N x N matrix actually decomposed by the second `dgesvd` call in
`Analysis.Sqrt_KF` (lines 230-234): `c_1 = blas.dgemm(alpha=1, a=c_1, b=H_dash)`;
`c_1 = blas.dgemm(alpha=1, a=H_dash.T, b=c_1)`; `diag = 1 - np.diag(c_1)`;
`np.fill_diagonal(c_1, diag)`.  Only the diagonal is complemented to
`1 - (H_dashᵀ C⁻¹ H_dash)_ii`; the off-diagonal entries keep the sign of
`H_dashᵀ C⁻¹ H_dash`, although the source comment above these lines reads
`I - Y(C^-1)Y`. -/
def srkfDecomposed (H_dash : Matrix (Fin m) (Fin N) F)
    (cinv : Matrix (Fin m) (Fin m) F) : Matrix (Fin N) (Fin N) F :=
  let a := H_dashᵀ * (cinv * H_dash)
  Matrix.of fun i j => if i = j then 1 - a i i else a i j

/-- C2: evaluation of the code at a failing input.  With
`H_dash = [[1, -1]]` (a centered 1 x 2 anomaly row) and the retained subspace
data `u_p = [[1]]`, `sig_kept^-2 = 1` (so `C⁻¹ = [[1]]`), the matrix the code
decomposes is `[[0, -1], [-1, 0]]`, which differs from
`I - H_dashᵀ C⁻¹ H_dash = [[0, 1], [1, 0]]`: the off-diagonal entries have the
wrong sign, contradicting the source comment `I - Y(C^-1)Y` and the spec. -/
theorem sqrtkf_decomposed_matrix_differs_from_claim :
    srkfDecomposed (!![(1 : ℚ), -1]) (srkfCinv (!![(1 : ℚ)]) fun _ => 1) ≠
      1 - (!![(1 : ℚ), -1])ᵀ *
        (srkfCinv (!![(1 : ℚ)]) (fun _ => 1) * !![(1 : ℚ), -1]) := by
  intro h
  have h0 := congrFun (congrFun h 0) 1
  simp [srkfDecomposed, srkfCinv, Matrix.mul_apply, Fin.sum_univ_two,
    Fin.sum_univ_one, Matrix.one_apply, Matrix.transpose_apply,
    Matrix.vecHead, Matrix.vecTail, Matrix.sub_apply, Matrix.of_apply,
    Matrix.diagonal, Matrix.vecMul, dotProduct, Fin.sum_univ_succ] at h0
  norm_num at h0

/-! ## Shape-level embedding of `Analysis.__init__` (da_engine.py lines 35-115)

Every dimension and configuration check in the constructor is an expression
statement of the form `ValueError("...")`: the exception object is constructed
and immediately discarded, never raised.  The only exceptions that actually
propagate out of the constructor are the ones the Python runtime raises by
itself: attribute access on `None` (`E.shape` in the `R` branch, `D.shape` in
the no-`d` branch), the reshape failure on line 68 (`d.reshape(m1, 1)` with a
length-`m4` mean vector when `m4 != m1`), and `d + None` when no error
ensemble could be resolved.  The embedding records each silent
`ValueError(...)` as a comment at the corresponding branch. -/

/-- Python exception values that can propagate out of the embedded control
flow. -/
inductive PyError where
  | valueError : String → PyError
  | attributeError : String → PyError
  | typeError : String → PyError
deriving DecidableEq, Repr

/-- The caller-visible argument pattern of `Analysis.__init__` at shape level:
the shapes of the supplied arrays, presence flags for the optional arguments,
and the method string. -/
structure InitArgs where
  Hshape : Nat × Nat
  Kshape : Nat × Nat
  Eshape : Option (Nat × Nat)
  Rshape : Option (Nat × Nat)
  Dshape : Option (Nat × Nat)
  dGiven : Bool
  errStdGiven : Bool
  errPercGiven : Bool
  method : String
deriving DecidableEq, Repr

/-- Shape-level embedding of the control flow of `Analysis.__init__`
(da_engine.py lines 35-115), returning `.ok ()` when the constructor returns
normally and `.error e` when the Python runtime raises `e`.  The `d`-squeeze
bookkeeping on lines 98-101 only reshapes and is elided. -/
def initResolve (a : InitArgs) : Except PyError Unit := do
  -- m1, N1 = H.shape ; n1, N2 = K.shape
  let m1 := a.Hshape.1
  let eResolved ←
    match a.Eshape with
    | some _ =>
        -- if m1 != m2: ValueError("...m must be the same in H and E")
        --   constructed, not raised
        -- if not (N1 == N2): ValueError("...n must be the same in H and E")
        --   constructed, not raised
        pure true
    | none =>
      match a.Rshape with
      | some _ =>
          -- m3, m3 = E.shape  with E = None: the runtime raises here,
          -- before the H/R dimension comparison is ever reached
          throw (PyError.attributeError "NoneType has no attribute shape")
      | none =>
        if !a.dGiven then
          match a.Dshape with
          | some (m4, _N4) =>
              -- if not (m4 == m1): ValueError("...m must be the same in H and D")
              --   constructed, not raised
              -- d = np.mean(D, axis=1)  : a length-m4 vector
              -- E = D - d.reshape(m1, 1)  : the runtime raises when m4 != m1
              --   (a size-m4 array cannot be reshaped into (m1, 1))
              -- E - E.mean(axis=1).reshape(m1, 1)  : computed and discarded
              if m4 = m1 then pure true
              else throw (PyError.valueError "cannot reshape array")
          | none =>
              -- m4, N4 = D.shape  with D = None: the runtime raises here,
              -- before the `if D is None` check on the next line
              throw (PyError.attributeError "NoneType has no attribute shape")
        else
          match a.Dshape with
          | none =>
              -- E = err_std * np.random.randn(m1, N1)  /  err_perc variant;
              -- with neither, only a print: E stays None
              pure (a.errStdGiven || a.errPercGiven)
          | some _ =>
              -- E = D - d
              -- E - E.mean(axis=1).reshape(m1, 1)  : computed and discarded
              pure true
  -- if not (method.lower() in ['enkf', 'sqrtkf']): ValueError(" Mode is supported")
  --   constructed, not raised
  match a.Dshape with
  | some _ => pure ()
  | none =>
      -- if d is None: ValueError(...)  constructed, not raised
      -- if E is None: ValueError(...)  constructed, not raised
      if a.dGiven then
        if eResolved then
          -- D = d + E
          pure ()
        else
          -- D = d + None: the runtime raises
          throw (PyError.typeError "unsupported operand types for +")
      else
        -- unreachable: d absent and D absent already raised above
        pure ()

/-- `self.method = method.lower()` (da_engine.py line 115), embedded as
character-wise ASCII lowering over the character list (the method strings in
play are ASCII). -/
def storedMethod (method : String) : String :=
  String.mk (method.data.map Char.toLower)

/-- Dispatch of `Analysis.update` (da_engine.py lines 117-125): the only
place where an unsupported method actually raises. -/
def updateDispatch (method : String) : Except PyError String :=
  if method = "enkf" then Except.ok "EnKF"
  else if method = "sqrtkf" then Except.ok "Sqrt_KF"
  else Except.error (PyError.valueError "Unknown method...")

/-- C1: evaluation of the code at failing inputs.  In no enumerated mismatch
case does the constructor raise the corresponding dimension-mismatch error
(each such `ValueError(...)` is constructed but never raised).  With `E` of
mismatched row count, and with `K` and `H` of different ensemble sizes, the
constructor returns normally (`.ok ()`) and the computation then proceeds to
produce a posterior.  With `D` of mismatched row count and `d` absent, the
constructor does fail, but only by accident and with an unrelated error: the
discarded check on line 62 is followed by `d.reshape(m1, 1)` on line 68,
which raises a generic numpy reshape `ValueError` because the length-`m4`
column-mean vector does not fit shape `(m1, 1)`.  With `R` supplied (even a
correctly sized `m` x `m` one) the constructor crashes with an
`AttributeError` from reading `E.shape` while `E` is `None`.
The four cases: `E` is 2 x 2 while `H` is 1 x 2; `K` is 1 x 3 while `H` is
1 x 2 (ensemble sizes 3 vs 2); `D` is 3 x 2 while `H` is 1 x 2, `d` absent;
`R` given as 1 x 1 with `H` 1 x 2. -/
theorem dimension_mismatch_constructor_returns_ok :
    (initResolve ⟨(1, 2), (1, 2), some (2, 2), none, some (1, 2),
        true, false, false, "enkf"⟩ = Except.ok ()) ∧
    (initResolve ⟨(1, 2), (1, 3), some (1, 2), none, some (1, 2),
        true, false, false, "enkf"⟩ = Except.ok ()) ∧
    (initResolve ⟨(1, 2), (1, 2), none, none, some (3, 2),
        false, false, false, "enkf"⟩ =
      Except.error (PyError.valueError "cannot reshape array")) ∧
    (initResolve ⟨(1, 2), (1, 2), none, some (1, 1), none,
        true, false, false, "enkf"⟩ =
      Except.error (PyError.attributeError "NoneType has no attribute shape")) := by
  exact ⟨rfl, rfl, rfl, rfl⟩

/-- C7: evaluation of the code at a failing input.  With the unsupported
method string "emkf" the constructor returns normally (its `ValueError(" Mode
is supported")` on line 90 is constructed but never raised); the error is
raised only later, when `update()` dispatches on the stored lower-cased
method. -/
theorem unsupported_method_constructor_returns_ok :
    (initResolve ⟨(1, 2), (1, 2), some (1, 2), none, some (1, 2),
        true, false, false, "emkf"⟩ = Except.ok ()) ∧
    (updateDispatch (storedMethod "emkf") =
      Except.error (PyError.valueError "Unknown method...")) := by
  refine ⟨rfl, ?_⟩
  have hm : storedMethod "emkf" = "emkf" := by decide
  rw [hm]
  rfl

/-! ## The error ensemble stored by the resolver (C8) -/

/-- `E` as stored by `Analysis.__init__` when `D` and `d` are both supplied
and `E`, `R` are absent (da_engine.py lines 85-87): `E = D - d` (with `d`
reshaped to a single column and broadcast over the `N` ensemble columns).
The next source line, `E - E.mean(axis=1).reshape(m1, 1)`, computes the
re-centered ensemble and discards it, so the stored value is exactly
`D - d`. -/
def storedEofDd (D : Matrix (Fin m) (Fin N) F) (d : Matrix (Fin m) (Fin 1) F) :
    Matrix (Fin m) (Fin N) F :=
  Matrix.of fun i j => D i j - d i 0

/-- `E` as stored when neither `E`, `R` nor `d` is supplied
(da_engine.py lines 65-69): `d = np.mean(D, axis=1)`;
`E = D - d.reshape(m1, 1)`; the re-centering statement on line 69 is again
discarded, but here `E` has exactly zero row means anyway. -/
def storedEofD (D : Matrix (Fin m) (Fin N) F) : Matrix (Fin m) (Fin N) F :=
  Matrix.of fun i j => D i j - (∑ k, D i k) / (N : F)

/-- C8: evaluation of the code at a failing input.  In the branch where both
`D` and `d` are supplied, the stored `E = D - d` is not re-centered (the
re-centering expression is discarded): for `D = [[1, 2]]` and `d = [0]` the
stored row has mean `3/2`, not `0`.  In the `D`-only branch the stored `E`
happens to have zero row mean because `d` is the column mean of `D`. -/
theorem stored_error_ensemble_not_recentered :
    (rowMeanC (storedEofDd (!![(1 : ℚ), 2]) (!![(0 : ℚ)])) 0 0 = 3 / 2 ∧
      (3 / 2 : ℚ) ≠ 0) ∧
    rowMeanC (storedEofD (!![(1 : ℚ), 2])) 0 0 = 0 := by
  refine ⟨⟨?_, by norm_num⟩, ?_⟩ <;>
    norm_num [rowMeanC, storedEofDd, storedEofD, Fin.sum_univ_two,
      Matrix.vecHead, Matrix.vecTail]

end DaEngine
